import Mathlib

set_option autoImplicit false

/-!
Verification of the multiplayer room/session server of the pumpgames
repository (the socket server in `src/unnamed/part_002`): the game-room
store, the per-connection session variables, and the event handlers
`joinGame`, `playerUpdate`, `playerStateUpdate`, `playerKilled` and
`playerRespawn`, together with the outbound emits each handler performs.

JavaScript `Map`s are modelled as association lists with JS `Map`
get/set/delete semantics (get and delete act on the first matching entry;
set replaces the first matching entry or appends).  JS numbers that only
ever hold ordinary numeric values are modelled as rationals, while the
client-supplied coordinate values of a `playerUpdate` payload (which may
be `NaN`, `Infinity` or not numbers at all) are modelled by `JsNum`, so
that the `typeof x === 'number'` validation of the handler is represented
faithfully.  Randomly generated values (spawn position, direction, color)
and `Date.now()` are supplied as explicit inputs of each event.
-/

/-- A client-supplied JavaScript value standing where a coordinate number
is expected: a finite number, `NaN`, `Infinity`, `-Infinity`, or a value
whose `typeof` is not `'number'`. -/
inductive JsNum where
  | num (q : ℚ)
  | nan
  | inf
  | ninf
  | nonNumber
  deriving DecidableEq

/-- `typeof v === 'number'` (true also for `NaN` and `±Infinity`). -/
def JsNum.isNumberType : JsNum → Bool
  | .nonNumber => false
  | _ => true

/-- The value is an ordinary finite number. -/
def JsNum.isFiniteNum : JsNum → Bool
  | .num _ => true
  | _ => false

/-- A position object as sent over the wire: fields `x` and `y`. -/
structure JsPos where
  x : JsNum
  y : JsNum
  deriving DecidableEq

/-- A well-formed position (both coordinates finite numbers), as produced
by the server itself (`generateSpawnPosition`). -/
structure Pos where
  x : ℚ
  y : ℚ
  deriving DecidableEq

/-- View a server-generated position as a wire position. -/
def Pos.toJs (p : Pos) : JsPos := ⟨.num p.x, .num p.y⟩

/-- `PlayerState` from `multiplayer-types.ts`. -/
structure PlayerState where
  id : String
  username : String
  head : JsPos
  direction : ℚ
  speed : ℚ
  length : ℚ
  color : String
  segments : List JsPos
  isBoosting : Bool
  score : ℚ
  money : ℚ
  kills : ℕ
  lastUpdate : ℕ
  deriving DecidableEq

/-- `PlayerUpdate` payload from `multiplayer-types.ts`.  The `head` field
as actually received from a client may be absent (`none`) or hold
non-numeric coordinates. -/
structure PlayerUpdate where
  id : String
  head : Option JsPos
  direction : ℚ
  speed : ℚ
  length : ℚ
  isBoosting : Bool
  deriving DecidableEq

/-- `Partial<PlayerState>` as accepted by the `playerStateUpdate` handler:
every field optional; `Object.assign` overwrites exactly the present ones.
(`lastUpdate` is always overwritten by the handler afterwards, so it is
not part of the patch.) -/
structure PlayerStatePatch where
  id : Option String := none
  username : Option String := none
  head : Option JsPos := none
  direction : Option ℚ := none
  speed : Option ℚ := none
  length : Option ℚ := none
  color : Option String := none
  segments : Option (List JsPos) := none
  isBoosting : Option Bool := none
  score : Option ℚ := none
  money : Option ℚ := none
  kills : Option ℕ := none
  deriving DecidableEq

/-- `Object.assign(player, stateData, { lastUpdate: Date.now() })`. -/
def applyPatch (p : PlayerState) (u : PlayerStatePatch) (now : ℕ) : PlayerState where
  id := u.id.getD p.id
  username := u.username.getD p.username
  head := u.head.getD p.head
  direction := u.direction.getD p.direction
  speed := u.speed.getD p.speed
  length := u.length.getD p.length
  color := u.color.getD p.color
  segments := u.segments.getD p.segments
  isBoosting := u.isBoosting.getD p.isBoosting
  score := u.score.getD p.score
  money := u.money.getD p.money
  kills := u.kills.getD p.kills
  lastUpdate := now

/-- The per-connection closure variables of the `io.on("connection")`
handler: `username`, `currentRoomId`, `isPlayerInGame`. -/
structure ConnState where
  username : String
  currentRoomId : Option String
  isPlayerInGame : Bool
  deriving DecidableEq

/-- JS `Map.get` on an association list (first matching entry). -/
def mget {α : Type} (l : List (String × α)) (k : String) : Option α :=
  match l with
  | [] => none
  | (k', v) :: t => if k' = k then some v else mget t k

/-- JS `Map.set`: replace the first entry with this key, or append. -/
def mset {α : Type} (l : List (String × α)) (k : String) (v : α) :
    List (String × α) :=
  match l with
  | [] => [(k, v)]
  | (k', v') :: t => if k' = k then (k, v) :: t else (k', v') :: mset t k v

/-- JS `Map.delete`: remove the first entry with this key, if present. -/
def mdel {α : Type} (l : List (String × α)) (k : String) : List (String × α) :=
  match l with
  | [] => []
  | (k', v') :: t => if k' = k then t else (k', v') :: mdel t k

/-- JS `Map.has`. -/
def mhas {α : Type} (l : List (String × α)) (k : String) : Bool :=
  (mget l k).isSome

/-- A game room: `Map<playerId, PlayerState>`. -/
abbrev Room := List (String × PlayerState)

/-- The server's mutable state: `gameRooms : Map<roomId, Map<playerId,
PlayerState>>` together with the per-connection closure variables of every
live socket. -/
structure ServerState where
  gameRooms : List (String × Room)
  conns : List (String × ConnState)
  deriving DecidableEq

/-- Outbound socket events, with the payload fields of the source. -/
inductive OutEvent where
  | roomFull (message : String) (currentPlayers maxPlayers : ℕ)
  | gameState (players : Room) (timestamp : ℕ)
  | playerJoined (player : PlayerState) (timestamp : ℕ)
  | playerUpdate (id : String) (head : JsPos) (direction speed length : ℚ)
      (isBoosting : Bool)
  | playerStateUpdate (id : String) (patch : PlayerStatePatch)
  | playerKilled (killerId killerUsername victimId victimUsername : String)
      (moneyGained newKillerMoney : ℚ) (newKillerKills : ℕ) (timestamp : ℕ)
  | balanceUpdate (playerId : String) (newBalance moneyGained : ℚ)
      (source : String) (timestamp : ℕ)
  | playerRespawned (playerId username : String) (newPosition : JsPos)
      (newBalance : ℚ) (timestamp : ℕ)
  | playerLeft (playerId : String) (timestamp : ℕ)
  deriving DecidableEq

/-- A transport action: `socket.emit` (to one socket),
`socket.to(room).emit` (to the room except the sender), `io.to(room).emit`
(to the whole room), or `socket.disconnect()`. -/
inductive Emit where
  | toSocket (sid : String) (ev : OutEvent)
  | toRoomExcept (room sender : String) (ev : OutEvent)
  | toRoom (room : String) (ev : OutEvent)
  | disconnect (sid : String)
  deriving DecidableEq

/-- `getOrCreateRoom` (src/unnamed/part_002:51-57): insert an empty room
if the key is absent. -/
def getOrCreateRoom (rooms : List (String × Room)) (roomId : String) :
    List (String × Room) :=
  if mhas rooms roomId then rooms else mset rooms roomId []

/-- The bot convention: `player.id.startsWith('bot-')`, i.e. the
character sequence of the id starts with the characters `bot-`. -/
def isBotId (id : String) : Bool := List.isPrefixOf "bot-".data id.data

/-- The `joinGame` handler (src/unnamed/part_002:310-382).  The randomly
generated spawn position, direction and color and `Date.now()` are inputs.
Note that the source sets `currentRoomId` (and possibly `username`) before
the capacity check, and creates the room if absent, so those effects also
happen on the rejection path. -/
def handleJoinGame (st : ServerState) (sid roomId region : String)
    (joinUsername : Option String) (spawn : Pos) (dir : ℚ) (color : String)
    (now : ℕ) : ServerState × List Emit :=
  match mget st.conns sid with
  | none => (st, [])
  | some c =>
    if c.isPlayerInGame then (st, [])
    else
      let roomName := region ++ ":" ++ roomId
      let uname :=
        match joinUsername with
        | some u => if u ≠ "" ∧ u ≠ "undefined" then u else c.username
        | none => c.username
      let c' : ConnState :=
        { c with currentRoomId := some roomName, username := uname }
      let rooms := getOrCreateRoom st.gameRooms roomName
      let room := (mget rooms roomName).getD []
      if 80 ≤ room.length then
        ({ gameRooms := rooms, conns := mset st.conns sid c' },
         [Emit.toSocket sid
            (.roomFull "This room is full. Please try another room."
              room.length 80),
          Emit.disconnect sid])
      else
        let newPlayer : PlayerState :=
          { id := sid, username := uname, head := spawn.toJs,
            direction := dir, speed := 2.5, length := 10, color := color,
            segments := [spawn.toJs], isBoosting := false, score := 0,
            money := 1, kills := 0, lastUpdate := now }
        let room' := mset room sid newPlayer
        let others := mdel room' sid
        ({ gameRooms := mset rooms roomName room',
           conns := mset st.conns sid { c' with isPlayerInGame := true } },
         [Emit.toSocket sid (.gameState others now),
          Emit.toRoomExcept roomName sid (.playerJoined newPlayer now)])

/-- The `playerUpdate` handler (src/unnamed/part_002:915-952): drops the
event unless the session is in game, the room and the player exist, the
payload's `head` is present and both its coordinates are of number type
(`typeof === 'number'`); otherwise overwrites the movement fields, sets
`lastUpdate`, and broadcasts a projection to the rest of the room. -/
def handlePlayerUpdate (st : ServerState) (sid : String) (u : PlayerUpdate)
    (now : ℕ) : ServerState × List Emit :=
  match mget st.conns sid with
  | none => (st, [])
  | some c =>
    if c.isPlayerInGame then
      match c.currentRoomId with
      | none => (st, [])
      | some rn =>
        match mget st.gameRooms rn with
        | none => (st, [])
        | some room =>
          match mget room sid with
          | none => (st, [])
          | some p =>
            match u.head with
            | none => (st, [])
            | some h =>
              if h.x.isNumberType && h.y.isNumberType then
                let p' : PlayerState :=
                  { p with
                    head := h, direction := u.direction, speed := u.speed,
                    length := u.length, isBoosting := u.isBoosting,
                    lastUpdate := now }
                ({ st with
                    gameRooms := mset st.gameRooms rn (mset room sid p') },
                 [Emit.toRoomExcept rn sid
                    (.playerUpdate sid h u.direction u.speed u.length
                      u.isBoosting)])
              else (st, [])
    else (st, [])

/-- The `playerStateUpdate` handler (src/unnamed/part_002:959-977):
`Object.assign`s the payload onto the player and broadcasts the payload
(plus id) to the rest of the room. -/
def handlePlayerStateUpdate (st : ServerState) (sid : String)
    (u : PlayerStatePatch) (now : ℕ) : ServerState × List Emit :=
  match mget st.conns sid with
  | none => (st, [])
  | some c =>
    if c.isPlayerInGame then
      match c.currentRoomId with
      | none => (st, [])
      | some rn =>
        match mget st.gameRooms rn with
        | none => (st, [])
        | some room =>
          match mget room sid with
          | none => (st, [])
          | some p =>
            ({ st with
                gameRooms :=
                  mset st.gameRooms rn (mset room sid (applyPatch p u now)) },
             [Emit.toRoomExcept rn sid (.playerStateUpdate sid u)])
    else (st, [])

/-- The `playerRespawn` handler (src/unnamed/part_002:992-1053). -/
def handlePlayerRespawn (st : ServerState) (sid : String) (spawn : Pos)
    (dir : ℚ) (now : ℕ) : ServerState × List Emit :=
  match mget st.conns sid with
  | none => (st, [])
  | some c =>
    if c.isPlayerInGame then
      match c.currentRoomId with
      | none => (st, [])
      | some rn =>
        match mget st.gameRooms rn with
        | none => (st, [])
        | some room =>
          match mget room sid with
          | none => (st, [])
          | some p =>
            if isBotId p.id then (st, [])
            else
              let p' : PlayerState :=
                { p with
                  head := spawn.toJs, direction := dir, speed := 2.5,
                  length := 10, segments := [spawn.toJs],
                  isBoosting := false, score := 0, money := 1, kills := 0,
                  lastUpdate := now }
              ({ st with
                  gameRooms := mset st.gameRooms rn (mset room sid p') },
               [Emit.toSocket sid (.balanceUpdate p.id 1 0 "respawn" now),
                Emit.toRoom rn
                  (.playerRespawned p.id p.username spawn.toJs 1 now),
                Emit.toRoom rn (.balanceUpdate p.id 1 0 "respawn" now)])
    else (st, [])

/-- The `playerKilled` handler (src/unnamed/part_002:1068-1155). -/
def handlePlayerKilled (st : ServerState) (sid victimId : String)
    (now : ℕ) : ServerState × List Emit :=
  match mget st.conns sid with
  | none => (st, [])
  | some c =>
    if c.isPlayerInGame then
      match c.currentRoomId with
      | none => (st, [])
      | some rn =>
        match mget st.gameRooms rn with
        | none => (st, [])
        | some room =>
          match mget room sid, mget room victimId with
          | some killer, some victim =>
            let isKillerBot := isBotId killer.id
            let isVictimBot := isBotId victim.id
            if !isKillerBot && !isVictimBot then
              let moneyGained := victim.money
              let killer' : PlayerState :=
                { killer with
                  money := killer.money + moneyGained,
                  kills := killer.kills + 1 }
              let room' := mdel (mset room sid killer') victimId
              ({ st with gameRooms := mset st.gameRooms rn room' },
               [Emit.toSocket sid
                  (.balanceUpdate killer.id killer'.money moneyGained
                    "kill" now),
                Emit.toRoom rn
                  (.playerKilled killer.id killer.username victim.id
                    victim.username moneyGained killer'.money killer'.kills
                    now),
                Emit.toRoom rn
                  (.balanceUpdate killer.id killer'.money moneyGained
                    "kill" now),
                Emit.toRoom rn (.playerLeft victimId now)])
            else if !isKillerBot then
              let killer' : PlayerState :=
                { killer with kills := killer.kills + 1 }
              let room' := mdel (mset room sid killer') victimId
              ({ st with gameRooms := mset st.gameRooms rn room' },
               [Emit.toRoom rn
                  (.playerKilled killer.id killer.username victim.id
                    victim.username 0 killer'.money killer'.kills now),
                Emit.toRoom rn (.playerLeft victimId now)])
            else
              ({ st with
                  gameRooms := mset st.gameRooms rn (mdel room victimId) },
               [Emit.toRoom rn (.playerLeft victimId now)])
          | _, _ => (st, [])
    else (st, [])

/-- Connection setup (src/unnamed/part_002:286-301): a fresh socket gets
the closure variables `currentRoomId = null`, `isPlayerInGame = false` and
a username from the handshake (already defaulted by the source).  Socket
ids are unique, so a `connect` for an id that is already live is a no-op. -/
def handleConnect (st : ServerState) (sid uname : String) :
    ServerState × List Emit :=
  if mhas st.conns sid then (st, [])
  else
    ({ st with
        conns := mset st.conns sid
          { username := uname, currentRoomId := none,
            isPlayerInGame := false } }, [])

/-- Inbound events of the room protocol.  Random draws (spawn position,
direction, color) and `Date.now()` are carried by the event. -/
inductive Event where
  | connect (sid uname : String)
  | joinGame (sid roomId region : String) (username : Option String)
      (spawn : Pos) (dir : ℚ) (color : String) (now : ℕ)
  | playerUpdate (sid : String) (u : PlayerUpdate) (now : ℕ)
  | playerStateUpdate (sid : String) (u : PlayerStatePatch) (now : ℕ)
  | playerKilled (sid victimId : String) (now : ℕ)
  | playerRespawn (sid : String) (spawn : Pos) (dir : ℚ) (now : ℕ)
  deriving DecidableEq

/-- One reactor step: dispatch an inbound event to its handler. -/
def step (st : ServerState) (e : Event) : ServerState × List Emit :=
  match e with
  | .connect sid uname => handleConnect st sid uname
  | .joinGame sid roomId region u spawn dir color now =>
      handleJoinGame st sid roomId region u spawn dir color now
  | .playerUpdate sid u now => handlePlayerUpdate st sid u now
  | .playerStateUpdate sid u now => handlePlayerStateUpdate st sid u now
  | .playerKilled sid victimId now => handlePlayerKilled st sid victimId now
  | .playerRespawn sid spawn dir now =>
      handlePlayerRespawn st sid spawn dir now

/-- Run a sequence of events, discarding the emits. -/
def run (st : ServerState) (evs : List Event) : ServerState :=
  evs.foldl (fun s e => (step s e).1) st

/-- The state at process start: no rooms, no connections. -/
def initState : ServerState := { gameRooms := [], conns := [] }

/-- Every room holds at most 80 players. -/
def capOk (st : ServerState) : Prop :=
  ∀ r ∈ st.gameRooms, r.2.length ≤ 80

/-- All players in all rooms have a non-negative balance. -/
def moneyInv (st : ServerState) : Prop :=
  ∀ r ∈ st.gameRooms, ∀ e ∈ r.2, (0 : ℚ) ≤ e.2.money

/-- The `money` field of a `playerStateUpdate` payload, when present, is
non-negative. -/
def patchMoneyOk (u : PlayerStatePatch) : Bool :=
  match u.money with
  | some m => decide (0 ≤ m)
  | none => true

/-- The event is not a `playerStateUpdate` carrying a negative `money`. -/
def eventMoneyOk : Event → Bool
  | .playerStateUpdate _ u _ => patchMoneyOk u
  | _ => true

/-- The event is not a kill naming this connection as the victim. -/
def notKillOf (sid : String) : Event → Bool
  | .playerKilled _ victimId _ => decide (victimId ≠ sid)
  | _ => true

/-- Number of rooms containing a player keyed by this connection id. -/
def joinedCount (st : ServerState) (sid : String) : ℕ :=
  st.gameRooms.countP (fun r => mhas r.2 sid)

/-- Whether the connection's `isPlayerInGame` closure variable is set. -/
def inGameFlag (st : ServerState) (sid : String) : Bool :=
  ((mget st.conns sid).map ConnState.isPlayerInGame).getD false

/-- A connection has a `PlayerState` in exactly one room when its session
is in game, and in none otherwise. -/
def sessionRoomInv (st : ServerState) (sid : String) : Prop :=
  joinedCount st sid = if inGameFlag st sid then 1 else 0

/-- Total money held by a room's players. -/
def roomMoney (r : Room) : ℚ := (r.map fun e => e.2.money).sum

/-- The validation of the `playerUpdate` handler, as the source performs
it: `head` present and both coordinates of number type. -/
def headValid (u : PlayerUpdate) : Bool :=
  match u.head with
  | none => false
  | some h => h.x.isNumberType && h.y.isNumberType

instance (st : ServerState) : Decidable (capOk st) := by
  unfold capOk; infer_instance

instance (st : ServerState) : Decidable (moneyInv st) := by
  unfold moneyInv; infer_instance

instance (st : ServerState) (sid : String) : Decidable (sessionRoomInv st sid) := by
  unfold sessionRoomInv; infer_instance

/-! ### Association-list (JS `Map`) lemmas -/

theorem mget_mset_self {α : Type} (l : List (String × α)) (k : String) (v : α) :
    mget (mset l k v) k = some v := by
  induction l with
  | nil => simp [mset, mget]
  | cons hd t ih =>
    obtain ⟨k', v'⟩ := hd
    by_cases h : k' = k
    · simp [mset, h, mget]
    · simp [mset, h, mget, ih]

theorem mget_mset_ne {α : Type} (l : List (String × α)) (k k' : String)
    (v : α) (h : k' ≠ k) : mget (mset l k v) k' = mget l k' := by
  have hk' : k ≠ k' := Ne.symm h
  induction l with
  | nil => simp [mset, mget, hk']
  | cons hd t ih =>
    obtain ⟨a, b⟩ := hd
    by_cases ha : a = k
    · subst ha
      simp [mset, mget, hk']
    · simp only [mset, if_neg ha, mget]
      by_cases ha' : a = k'
      · simp [ha']
      · simp [ha', ih]

theorem mhas_of_mget {α : Type} {l : List (String × α)} {k : String} {v : α}
    (h : mget l k = some v) : mhas l k = true := by
  simp [mhas, h]

theorem length_mset_of_has {α : Type} (l : List (String × α)) (k : String)
    (v : α) (h : mhas l k = true) : (mset l k v).length = l.length := by
  induction l with
  | nil => simp [mhas, mget] at h
  | cons hd t ih =>
    obtain ⟨k', v'⟩ := hd
    by_cases hk : k' = k
    · simp [mset, hk]
    · simp only [mhas, mget, if_neg hk] at h
      simp [mset, if_neg hk, ih h]

theorem length_mset_le {α : Type} (l : List (String × α)) (k : String)
    (v : α) : (mset l k v).length ≤ l.length + 1 := by
  induction l with
  | nil => simp [mset]
  | cons hd t ih =>
    obtain ⟨k', v'⟩ := hd
    by_cases hk : k' = k
    · simp [mset, hk]
    · simpa [mset, if_neg hk] using ih

theorem mget_mdel_ne {α : Type} (l : List (String × α)) (k k' : String)
    (h : k' ≠ k) : mget (mdel l k) k' = mget l k' := by
  have hk' : k ≠ k' := Ne.symm h
  induction l with
  | nil => simp [mdel]
  | cons hd t ih =>
    obtain ⟨a, b⟩ := hd
    by_cases ha : a = k
    · subst ha
      simp [mdel, mget, hk']
    · simp only [mdel, if_neg ha, mget]
      by_cases ha' : a = k'
      · simp [ha']
      · simp [ha', ih]

theorem length_mdel_le {α : Type} (l : List (String × α)) (k : String) :
    (mdel l k).length ≤ l.length := by
  induction l with
  | nil => simp [mdel]
  | cons hd t ih =>
    obtain ⟨k', v'⟩ := hd
    by_cases hk : k' = k
    · simp [mdel, hk]
    · simpa [mdel, if_neg hk] using Nat.succ_le_succ ih

theorem mem_mset {α : Type} {l : List (String × α)} {k : String} {v : α}
    {x : String × α} (h : x ∈ mset l k v) : x = (k, v) ∨ x ∈ l := by
  induction l with
  | nil => simpa [mset] using h
  | cons hd t ih =>
    obtain ⟨k', v'⟩ := hd
    by_cases hk : k' = k
    · simp only [mset, if_pos hk, List.mem_cons] at h
      rcases h with h | h
      · exact Or.inl h
      · exact Or.inr (List.mem_cons_of_mem _ h)
    · simp only [mset, if_neg hk, List.mem_cons] at h
      rcases h with h | h
      · exact Or.inr (by simp [h])
      · rcases ih h with h' | h'
        · exact Or.inl h'
        · exact Or.inr (List.mem_cons_of_mem _ h')

theorem mem_mdel {α : Type} {l : List (String × α)} {k : String}
    {x : String × α} (h : x ∈ mdel l k) : x ∈ l := by
  induction l with
  | nil => simp [mdel] at h
  | cons hd t ih =>
    obtain ⟨k', v'⟩ := hd
    by_cases hk : k' = k
    · simp only [mdel, if_pos hk] at h
      exact List.mem_cons_of_mem _ h
    · simp only [mdel, if_neg hk, List.mem_cons] at h
      rcases h with h | h
      · simp [h]
      · exact List.mem_cons_of_mem _ (ih h)

theorem mem_of_mget {α : Type} {l : List (String × α)} {k : String} {v : α}
    (h : mget l k = some v) : (k, v) ∈ l := by
  induction l with
  | nil => simp [mget] at h
  | cons hd t ih =>
    obtain ⟨a, b⟩ := hd
    by_cases ha : a = k
    · subst ha
      have hb : b = v := by simpa [mget] using h
      subst hb
      exact List.mem_cons_self _ _
    · simp only [mget, if_neg ha] at h
      exact List.mem_cons_of_mem _ (ih h)

theorem keys_mset_of_has {α : Type} (l : List (String × α)) (k : String)
    (v : α) (h : mhas l k = true) :
    (mset l k v).map Prod.fst = l.map Prod.fst := by
  induction l with
  | nil => simp [mhas, mget] at h
  | cons hd t ih =>
    obtain ⟨k', v'⟩ := hd
    by_cases hk : k' = k
    · simp [mset, hk]
    · simp only [mhas, mget, if_neg hk] at h
      simp [mset, if_neg hk, ih h]

theorem mget_eq_none_of_not_key {α : Type} {l : List (String × α)}
    {k : String} (h : k ∉ l.map Prod.fst) : mget l k = none := by
  induction l with
  | nil => simp [mget]
  | cons hd t ih =>
    obtain ⟨a, b⟩ := hd
    simp only [List.map_cons, List.mem_cons] at h
    push_neg at h
    simp only [mget, if_neg (fun hh : a = k => h.1 hh.symm)]
    exact ih h.2

theorem mget_mdel_self_of_nodup {α : Type} {l : List (String × α)}
    {k : String} (h : (l.map Prod.fst).Nodup) : mget (mdel l k) k = none := by
  induction l with
  | nil => simp [mdel, mget]
  | cons hd t ih =>
    obtain ⟨a, b⟩ := hd
    simp only [List.map_cons, List.nodup_cons] at h
    by_cases ha : a = k
    · subst ha
      simp only [mdel, if_pos rfl]
      exact mget_eq_none_of_not_key h.1
    · simp only [mdel, if_neg ha, mget, if_neg ha]
      exact ih h.2

theorem roomMoney_mdel {l : Room} {k : String} {v : PlayerState}
    (h : mget l k = some v) :
    roomMoney (mdel l k) = roomMoney l - v.money := by
  induction l with
  | nil => simp [mget] at h
  | cons hd t ih =>
    obtain ⟨a, b⟩ := hd
    by_cases ha : a = k
    · simp only [mget, if_pos ha, Option.some.injEq] at h
      subst h
      simp [mdel, if_pos ha, roomMoney]
    · simp only [mget, if_neg ha] at h
      simp only [mdel, if_neg ha, roomMoney, List.map_cons, List.sum_cons]
      have h2 := ih h
      simp only [roomMoney] at h2
      rw [h2]
      ring

theorem countP_mset_eq {α : Type} (p : String × α → Bool)
    {l : List (String × α)} {k : String} {w : α} (v : α)
    (h : mget l k = some w) :
    (mset l k v).countP p + (if p (k, w) then 1 else 0)
      = l.countP p + (if p (k, v) then 1 else 0) := by
  induction l with
  | nil => simp [mget] at h
  | cons hd t ih =>
    obtain ⟨a, b⟩ := hd
    by_cases ha : a = k
    · subst ha
      have hb : b = w := by simpa [mget] using h
      rw [show mset ((a, b) :: t) a v = (a, v) :: t from by simp [mset], hb]
      simp only [List.countP_cons]
      omega
    · simp only [mget, if_neg ha] at h
      simp only [mset, if_neg ha, List.countP_cons]
      have h2 := ih h
      omega

theorem countP_mset_congr {α : Type} (p : String × α → Bool)
    {l : List (String × α)} {k : String} {w : α} (v : α)
    (h : mget l k = some w) (hp : p (k, v) = p (k, w)) :
    (mset l k v).countP p = l.countP p := by
  have := countP_mset_eq p v h
  rw [hp] at this
  omega

theorem countP_mset_none {α : Type} (p : String × α → Bool)
    {l : List (String × α)} {k : String} (v : α) (h : mget l k = none) :
    (mset l k v).countP p = l.countP p + (if p (k, v) then 1 else 0) := by
  induction l with
  | nil => simp [mset, List.countP_cons]
  | cons hd t ih =>
    obtain ⟨a, b⟩ := hd
    by_cases ha : a = k
    · simp [mget, if_pos ha] at h
    · simp only [mget, if_neg ha] at h
      simp only [mset, if_neg ha, List.countP_cons, ih h]
      omega

theorem mget_eq_none_of_has_false {α : Type} {l : List (String × α)}
    {k : String} (h : mhas l k = false) : mget l k = none := by
  unfold mhas at h
  cases o : mget l k with
  | none => rfl
  | some v => rw [o] at h; simp at h

theorem mhas_mset_of_get {α : Type} {room : List (String × α)} {k : String}
    {p : α} (hp : mget room k = some p) (v : α) (t : String) :
    mhas (mset room k v) t = mhas room t := by
  by_cases ht : t = k
  · subst ht
    simp [mhas, mget_mset_self, hp]
  · simp [mhas, mget_mset_ne _ _ _ _ ht]

theorem mhas_mdel_ne {α : Type} {l : List (String × α)} {k t : String}
    (hne : t ≠ k) : mhas (mdel l k) t = mhas l t := by
  simp [mhas, mget_mdel_ne _ _ _ hne]

theorem countP_getOrCreate (rooms : List (String × Room)) (rn : String)
    (p : String × Room → Bool) (hp : p (rn, []) = false) :
    (getOrCreateRoom rooms rn).countP p = rooms.countP p := by
  unfold getOrCreateRoom
  split
  · rfl
  · rename_i hhas
    rw [countP_mset_none p _ (mget_eq_none_of_has_false (by simpa using hhas))]
    simp [hp]

theorem getOrCreate_get (rooms : List (String × Room)) (rn : String) :
    mget (getOrCreateRoom rooms rn) rn
      = some ((mget (getOrCreateRoom rooms rn) rn).getD []) := by
  unfold getOrCreateRoom
  split
  · rename_i hhas
    unfold mhas at hhas
    cases o : mget rooms rn with
    | none => rw [o] at hhas; simp at hhas
    | some r => simp [o]
  · simp [mget_mset_self]

/-! ### Preservation of the 80-player capacity bound -/

theorem roomsLe_mset {rooms : List (String × Room)} {rn : String}
    {room' : Room} (h : ∀ r ∈ rooms, r.2.length ≤ 80)
    (hlen : room'.length ≤ 80) :
    ∀ r ∈ mset rooms rn room', r.2.length ≤ 80 := by
  intro r hr
  rcases mem_mset hr with h1 | h1
  · subst h1; exact hlen
  · exact h r h1

theorem roomsLe_getOrCreate {rooms : List (String × Room)} {rn : String}
    (h : ∀ r ∈ rooms, r.2.length ≤ 80) :
    ∀ r ∈ getOrCreateRoom rooms rn, r.2.length ≤ 80 := by
  unfold getOrCreateRoom
  split
  · exact h
  · exact roomsLe_mset h (by simp)

theorem capOk_handleConnect (st : ServerState) (sid uname : String)
    (h : capOk st) : capOk (handleConnect st sid uname).1 := by
  unfold capOk at *
  unfold handleConnect
  split
  · exact h
  · exact h

theorem capOk_handleJoinGame (st : ServerState) (sid roomId region : String)
    (ju : Option String) (spawn : Pos) (dir : ℚ) (color : String) (now : ℕ)
    (h : capOk st) :
    capOk (handleJoinGame st sid roomId region ju spawn dir color now).1 := by
  unfold capOk at *
  unfold handleJoinGame
  split
  · exact h
  · split
    · exact h
    · split <;> dsimp only <;> split
      all_goals
        first
        | exact roomsLe_getOrCreate h
        | · rename_i hcap
            refine roomsLe_mset (roomsLe_getOrCreate h) ?_
            refine le_trans (length_mset_le _ _ _) ?_
            omega

theorem capOk_handlePlayerUpdate (st : ServerState) (sid : String)
    (u : PlayerUpdate) (now : ℕ) (h : capOk st) :
    capOk (handlePlayerUpdate st sid u now).1 := by
  unfold capOk at *
  unfold handlePlayerUpdate
  split
  · exact h
  · split
    · split
      · exact h
      · split
        · exact h
        · split
          · exact h
          · split
            · exact h
            · split
              · dsimp only
                refine roomsLe_mset h ?_
                rw [length_mset_of_has _ _ _ (mhas_of_mget ‹mget _ sid = some _›)]
                exact h _ (mem_of_mget ‹mget st.gameRooms _ = some _›)
              · exact h
    · exact h

theorem capOk_handlePlayerStateUpdate (st : ServerState) (sid : String)
    (u : PlayerStatePatch) (now : ℕ) (h : capOk st) :
    capOk (handlePlayerStateUpdate st sid u now).1 := by
  unfold capOk at *
  unfold handlePlayerStateUpdate
  split
  · exact h
  · split
    · split
      · exact h
      · split
        · exact h
        · split
          · exact h
          · dsimp only
            refine roomsLe_mset h ?_
            rw [length_mset_of_has _ _ _ (mhas_of_mget ‹mget _ sid = some _›)]
            exact h _ (mem_of_mget ‹mget st.gameRooms _ = some _›)
    · exact h

theorem capOk_handlePlayerRespawn (st : ServerState) (sid : String)
    (spawn : Pos) (dir : ℚ) (now : ℕ) (h : capOk st) :
    capOk (handlePlayerRespawn st sid spawn dir now).1 := by
  unfold capOk at *
  unfold handlePlayerRespawn
  split
  · exact h
  · split
    · split
      · exact h
      · split
        · exact h
        · split
          · exact h
          · split
            · exact h
            · dsimp only
              refine roomsLe_mset h ?_
              rw [length_mset_of_has _ _ _ (mhas_of_mget ‹mget _ sid = some _›)]
              exact h _ (mem_of_mget ‹mget st.gameRooms _ = some _›)
    · exact h

theorem capOk_handlePlayerKilled (st : ServerState) (sid victimId : String)
    (now : ℕ) (h : capOk st) :
    capOk (handlePlayerKilled st sid victimId now).1 := by
  unfold capOk at *
  unfold handlePlayerKilled
  split
  · exact h
  · split
    · split
      · exact h
      · split
        · exact h
        · split
          · dsimp only
            split
            · refine roomsLe_mset h ?_
              refine le_trans (length_mdel_le _ _) ?_
              rw [length_mset_of_has _ _ _ (mhas_of_mget ‹mget _ sid = some _›)]
              exact h _ (mem_of_mget ‹mget st.gameRooms _ = some _›)
            · split
              · refine roomsLe_mset h ?_
                refine le_trans (length_mdel_le _ _) ?_
                rw [length_mset_of_has _ _ _ (mhas_of_mget ‹mget _ sid = some _›)]
                exact h _ (mem_of_mget ‹mget st.gameRooms _ = some _›)
              · refine roomsLe_mset h ?_
                refine le_trans (length_mdel_le _ _) ?_
                exact h _ (mem_of_mget ‹mget st.gameRooms _ = some _›)
          · exact h
    · exact h

theorem capOk_step (st : ServerState) (e : Event) (h : capOk st) :
    capOk (step st e).1 := by
  cases e with
  | connect sid uname => exact capOk_handleConnect st sid uname h
  | joinGame sid roomId region ju spawn dir color now =>
      exact capOk_handleJoinGame st sid roomId region ju spawn dir color now h
  | playerUpdate sid u now => exact capOk_handlePlayerUpdate st sid u now h
  | playerStateUpdate sid u now =>
      exact capOk_handlePlayerStateUpdate st sid u now h
  | playerKilled sid victimId now =>
      exact capOk_handlePlayerKilled st sid victimId now h
  | playerRespawn sid spawn dir now =>
      exact capOk_handlePlayerRespawn st sid spawn dir now h

theorem capOk_run (st : ServerState) (evs : List Event) (h : capOk st) :
    capOk (run st evs) := by
  induction evs generalizing st with
  | nil => exact h
  | cons e t ih => exact ih _ (capOk_step st e h)

theorem capOk_initState : capOk initState := by
  intro r hr
  simp [initState] at hr

/-! ### Preservation of non-negative balances -/

theorem moneyRooms_mset {rooms : List (String × Room)} {rn : String}
    {room' : Room} (h : ∀ r ∈ rooms, ∀ e ∈ r.2, (0 : ℚ) ≤ e.2.money)
    (h' : ∀ e ∈ room', (0 : ℚ) ≤ e.2.money) :
    ∀ r ∈ mset rooms rn room', ∀ e ∈ r.2, (0 : ℚ) ≤ e.2.money := by
  intro r hr
  rcases mem_mset hr with h1 | h1
  · subst h1; exact h'
  · exact h r h1

theorem moneyRoom_mset {room : Room} {k : String} {v : PlayerState}
    (h : ∀ e ∈ room, (0 : ℚ) ≤ e.2.money) (hv : (0 : ℚ) ≤ v.money) :
    ∀ e ∈ mset room k v, (0 : ℚ) ≤ e.2.money := by
  intro e he
  rcases mem_mset he with h1 | h1
  · subst h1; exact hv
  · exact h e h1

theorem moneyRoom_mdel {room : Room} {k : String}
    (h : ∀ e ∈ room, (0 : ℚ) ≤ e.2.money) :
    ∀ e ∈ mdel room k, (0 : ℚ) ≤ e.2.money :=
  fun e he => h e (mem_mdel he)

theorem moneyRooms_getOrCreate {rooms : List (String × Room)} {rn : String}
    (h : ∀ r ∈ rooms, ∀ e ∈ r.2, (0 : ℚ) ≤ e.2.money) :
    ∀ r ∈ getOrCreateRoom rooms rn, ∀ e ∈ r.2, (0 : ℚ) ≤ e.2.money := by
  unfold getOrCreateRoom
  split
  · exact h
  · exact moneyRooms_mset h (by simp)

theorem moneyRoom_getD {rooms : List (String × Room)} {rn : String}
    (h : ∀ r ∈ rooms, ∀ e ∈ r.2, (0 : ℚ) ≤ e.2.money) :
    ∀ e ∈ (mget rooms rn).getD [], (0 : ℚ) ≤ e.2.money := by
  cases o : mget rooms rn with
  | none => simp
  | some r => simpa using h _ (mem_of_mget o)

theorem applyPatch_money_nonneg {p : PlayerState} {u : PlayerStatePatch}
    {now : ℕ} (hp : (0 : ℚ) ≤ p.money) (hu : patchMoneyOk u = true) :
    (0 : ℚ) ≤ (applyPatch p u now).money := by
  unfold applyPatch
  unfold patchMoneyOk at hu
  cases o : u.money with
  | none => simpa [o] using hp
  | some m => rw [o] at hu; simpa [o] using of_decide_eq_true hu

theorem moneyInv_handleConnect (st : ServerState) (sid uname : String)
    (h : moneyInv st) : moneyInv (handleConnect st sid uname).1 := by
  unfold moneyInv at *
  unfold handleConnect
  split
  · exact h
  · exact h

theorem moneyInv_handleJoinGame (st : ServerState)
    (sid roomId region : String) (ju : Option String) (spawn : Pos) (dir : ℚ)
    (color : String) (now : ℕ) (h : moneyInv st) :
    moneyInv (handleJoinGame st sid roomId region ju spawn dir color now).1 := by
  unfold moneyInv at *
  unfold handleJoinGame
  split
  · exact h
  · split
    · exact h
    · split <;> dsimp only <;> split
      all_goals
        first
        | exact moneyRooms_getOrCreate h
        | exact moneyRooms_mset (moneyRooms_getOrCreate h)
            (moneyRoom_mset (moneyRoom_getD (moneyRooms_getOrCreate h))
              (by norm_num))

theorem moneyInv_handlePlayerUpdate (st : ServerState) (sid : String)
    (u : PlayerUpdate) (now : ℕ) (h : moneyInv st) :
    moneyInv (handlePlayerUpdate st sid u now).1 := by
  unfold moneyInv at *
  unfold handlePlayerUpdate
  split
  · exact h
  · split
    · split
      · exact h
      · split
        · exact h
        · split
          · exact h
          · split
            · exact h
            · split
              · dsimp only
                refine moneyRooms_mset h (moneyRoom_mset ?_ ?_)
                · exact h _ (mem_of_mget ‹mget st.gameRooms _ = some _›)
                · have hm := h _ (mem_of_mget ‹mget st.gameRooms _ = some _›)
                    _ (mem_of_mget ‹mget _ sid = some _›)
                  exact hm
              · exact h
    · exact h

theorem moneyInv_handlePlayerStateUpdate (st : ServerState) (sid : String)
    (u : PlayerStatePatch) (now : ℕ) (hu : patchMoneyOk u = true)
    (h : moneyInv st) : moneyInv (handlePlayerStateUpdate st sid u now).1 := by
  unfold moneyInv at *
  unfold handlePlayerStateUpdate
  split
  · exact h
  · split
    · split
      · exact h
      · split
        · exact h
        · split
          · exact h
          · dsimp only
            refine moneyRooms_mset h (moneyRoom_mset ?_ ?_)
            · exact h _ (mem_of_mget ‹mget st.gameRooms _ = some _›)
            · exact applyPatch_money_nonneg
                (h _ (mem_of_mget ‹mget st.gameRooms _ = some _›) _
                  (mem_of_mget ‹mget _ sid = some _›)) hu
    · exact h

theorem moneyInv_handlePlayerRespawn (st : ServerState) (sid : String)
    (spawn : Pos) (dir : ℚ) (now : ℕ) (h : moneyInv st) :
    moneyInv (handlePlayerRespawn st sid spawn dir now).1 := by
  unfold moneyInv at *
  unfold handlePlayerRespawn
  split
  · exact h
  · split
    · split
      · exact h
      · split
        · exact h
        · split
          · exact h
          · split
            · exact h
            · dsimp only
              refine moneyRooms_mset h (moneyRoom_mset ?_ (by norm_num))
              exact h _ (mem_of_mget ‹mget st.gameRooms _ = some _›)
    · exact h

theorem moneyInv_handlePlayerKilled (st : ServerState)
    (sid victimId : String) (now : ℕ) (h : moneyInv st) :
    moneyInv (handlePlayerKilled st sid victimId now).1 := by
  unfold moneyInv at *
  unfold handlePlayerKilled
  split
  · exact h
  · split
    · split
      · exact h
      · split
        · exact h
        · split
          · dsimp only
            split
            · refine moneyRooms_mset h (moneyRoom_mdel (moneyRoom_mset ?_ ?_))
              · exact h _ (mem_of_mget ‹mget st.gameRooms _ = some _›)
              · exact add_nonneg
                  (h _ (mem_of_mget ‹mget st.gameRooms _ = some _›) _
                    (mem_of_mget ‹mget _ sid = some _›))
                  (h _ (mem_of_mget ‹mget st.gameRooms _ = some _›) _
                    (mem_of_mget ‹mget _ victimId = some _›))
            · split
              · refine moneyRooms_mset h (moneyRoom_mdel (moneyRoom_mset ?_ ?_))
                · exact h _ (mem_of_mget ‹mget st.gameRooms _ = some _›)
                · have hm := h _ (mem_of_mget ‹mget st.gameRooms _ = some _›)
                    _ (mem_of_mget ‹mget _ sid = some _›)
                  exact hm
              · refine moneyRooms_mset h (moneyRoom_mdel ?_)
                exact h _ (mem_of_mget ‹mget st.gameRooms _ = some _›)
          · exact h
    · exact h

theorem moneyInv_step (st : ServerState) (e : Event)
    (he : eventMoneyOk e = true) (h : moneyInv st) : moneyInv (step st e).1 := by
  cases e with
  | connect sid uname => exact moneyInv_handleConnect st sid uname h
  | joinGame sid roomId region ju spawn dir color now =>
      exact moneyInv_handleJoinGame st sid roomId region ju spawn dir color now h
  | playerUpdate sid u now => exact moneyInv_handlePlayerUpdate st sid u now h
  | playerStateUpdate sid u now =>
      exact moneyInv_handlePlayerStateUpdate st sid u now (by simpa [eventMoneyOk] using he) h
  | playerKilled sid victimId now =>
      exact moneyInv_handlePlayerKilled st sid victimId now h
  | playerRespawn sid spawn dir now =>
      exact moneyInv_handlePlayerRespawn st sid spawn dir now h

theorem moneyInv_run (st : ServerState) (evs : List Event)
    (he : ∀ e ∈ evs, eventMoneyOk e = true) (h : moneyInv st) :
    moneyInv (run st evs) := by
  induction evs generalizing st with
  | nil => exact h
  | cons e t ih =>
      exact ih _ (fun x hx => he x (List.mem_cons_of_mem _ hx))
        (moneyInv_step st e (he e (List.mem_cons_self _ _)) h)

/-! ### Preservation of the one-room-per-session invariant -/

theorem mhas_mset_ne {α : Type} {l : List (String × α)} {k t : String}
    (v : α) (hne : t ≠ k) : mhas (mset l k v) t = mhas l t := by
  simp [mhas, mget_mset_ne _ _ _ _ hne]

theorem srInv_set_room (st : ServerState) (rn t : String) (room room' : Room)
    (hget : mget st.gameRooms rn = some room)
    (hhas : mhas room' t = mhas room t) (h : sessionRoomInv st t) :
    sessionRoomInv { st with gameRooms := mset st.gameRooms rn room' } t := by
  unfold sessionRoomInv joinedCount inGameFlag at *
  dsimp only
  rw [countP_mset_congr _ _ hget (by simpa using hhas)]
  exact h

theorem srInv_handleConnect (st : ServerState) (sid uname t : String)
    (h : sessionRoomInv st t) :
    sessionRoomInv (handleConnect st sid uname).1 t := by
  unfold handleConnect
  split
  · exact h
  · rename_i hhas
    unfold sessionRoomInv joinedCount inGameFlag at *
    dsimp only
    by_cases hts : t = sid
    · subst hts
      rw [mget_mset_self]
      have h0 : mget st.conns t = none :=
        mget_eq_none_of_has_false (by simpa using hhas)
      rw [h0] at h
      simpa using h
    · rw [mget_mset_ne _ _ _ _ hts]
      exact h

theorem srInv_join_reject (st : ServerState) (sid rn t : String)
    (c c' : ConnState) (hc : mget st.conns sid = some c)
    (hig : c'.isPlayerInGame = c.isPlayerInGame) (h : sessionRoomInv st t) :
    sessionRoomInv ⟨getOrCreateRoom st.gameRooms rn, mset st.conns sid c'⟩ t := by
  unfold sessionRoomInv joinedCount inGameFlag at *
  dsimp only
  rw [countP_getOrCreate _ _ _ (by simp [mhas, mget])]
  by_cases hts : t = sid
  · subst hts
    rw [mget_mset_self]
    rw [hc] at h
    simpa [hig] using h
  · rw [mget_mset_ne _ _ _ _ hts]
    exact h

theorem srInv_join_accept (st : ServerState) (sid rn t : String)
    (c c' : ConnState) (np : PlayerState) (hc : mget st.conns sid = some c)
    (hng : c.isPlayerInGame = false) (hig : c'.isPlayerInGame = true)
    (h : sessionRoomInv st t) :
    sessionRoomInv
      ⟨mset (getOrCreateRoom st.gameRooms rn) rn
          (mset ((mget (getOrCreateRoom st.gameRooms rn) rn).getD []) sid np),
        mset st.conns sid c'⟩ t := by
  unfold sessionRoomInv joinedCount inGameFlag at *
  dsimp only
  have hget := getOrCreate_get st.gameRooms rn
  by_cases hts : t = sid
  · subst hts
    rw [hc] at h
    simp only [hng, Option.map_some', Option.getD_some, Bool.false_eq_true,
      if_false] at h
    have h0 : (getOrCreateRoom st.gameRooms rn).countP
        (fun r => mhas r.2 t) = 0 := by
      rw [countP_getOrCreate _ _ _ (by simp [mhas, mget])]
      exact h
    have hnothas :
        mhas ((mget (getOrCreateRoom st.gameRooms rn) rn).getD []) t
          = false := by
      have hm := List.countP_eq_zero.mp h0 _ (mem_of_mget hget)
      simpa using hm
    have hc1 := countP_mset_eq (fun r => mhas r.2 t)
      (mset ((mget (getOrCreateRoom st.gameRooms rn) rn).getD []) t np) hget
    have hhas' : mhas
        (mset ((mget (getOrCreateRoom st.gameRooms rn) rn).getD []) t np) t
          = true := by
      simp [mhas, mget_mset_self]
    simp only [hnothas, hhas', Bool.false_eq_true, if_false, if_true] at hc1
    rw [mget_mset_self]
    simp only [Option.map_some', Option.getD_some, hig, if_true]
    rw [Nat.add_zero, h0] at hc1
    simpa using hc1
  · rw [mget_mset_ne _ _ _ _ hts]
    rw [countP_mset_congr _ _ hget
      (by simpa using mhas_mset_ne np hts)]
    rw [countP_getOrCreate _ _ _ (by simp [mhas, mget])]
    exact h

theorem srInv_handleJoinGame (st : ServerState) (sid roomId region : String)
    (ju : Option String) (spawn : Pos) (dir : ℚ) (color : String) (now : ℕ)
    (t : String) (h : sessionRoomInv st t) :
    sessionRoomInv (handleJoinGame st sid roomId region ju spawn dir color now).1 t := by
  unfold handleJoinGame
  split
  · exact h
  · rename_i c hc
    split
    · exact h
    · rename_i hng
      split <;> dsimp only <;> split
      all_goals
        first
        | exact srInv_join_reject st sid _ t c _ hc rfl h
        | exact srInv_join_accept st sid _ t c _ _ hc
            (by simpa using hng) rfl h

theorem srInv_handlePlayerUpdate (st : ServerState) (sid : String)
    (u : PlayerUpdate) (now : ℕ) (t : String) (h : sessionRoomInv st t) :
    sessionRoomInv (handlePlayerUpdate st sid u now).1 t := by
  unfold handlePlayerUpdate
  split
  · exact h
  · split
    · split
      · exact h
      · split
        · exact h
        · split
          · exact h
          · split
            · exact h
            · split
              · exact srInv_set_room st _ t _ _
                  ‹mget st.gameRooms _ = some _›
                  (mhas_mset_of_get ‹mget _ sid = some _› _ t) h
              · exact h
    · exact h

theorem srInv_handlePlayerStateUpdate (st : ServerState) (sid : String)
    (u : PlayerStatePatch) (now : ℕ) (t : String) (h : sessionRoomInv st t) :
    sessionRoomInv (handlePlayerStateUpdate st sid u now).1 t := by
  unfold handlePlayerStateUpdate
  split
  · exact h
  · split
    · split
      · exact h
      · split
        · exact h
        · split
          · exact h
          · exact srInv_set_room st _ t _ _
              ‹mget st.gameRooms _ = some _›
              (mhas_mset_of_get ‹mget _ sid = some _› _ t) h
    · exact h

theorem srInv_handlePlayerRespawn (st : ServerState) (sid : String)
    (spawn : Pos) (dir : ℚ) (now : ℕ) (t : String) (h : sessionRoomInv st t) :
    sessionRoomInv (handlePlayerRespawn st sid spawn dir now).1 t := by
  unfold handlePlayerRespawn
  split
  · exact h
  · split
    · split
      · exact h
      · split
        · exact h
        · split
          · exact h
          · split
            · exact h
            · exact srInv_set_room st _ t _ _
                ‹mget st.gameRooms _ = some _›
                (mhas_mset_of_get ‹mget _ sid = some _› _ t) h
    · exact h

theorem srInv_handlePlayerKilled (st : ServerState) (sid victimId : String)
    (now : ℕ) (t : String) (hvt : victimId ≠ t) (h : sessionRoomInv st t) :
    sessionRoomInv (handlePlayerKilled st sid victimId now).1 t := by
  have htv : t ≠ victimId := Ne.symm hvt
  unfold handlePlayerKilled
  split
  · exact h
  · split
    · split
      · exact h
      · split
        · exact h
        · split
          · dsimp only
            split
            · refine srInv_set_room st _ t _ _
                ‹mget st.gameRooms _ = some _› ?_ h
              rw [mhas_mdel_ne htv,
                mhas_mset_of_get ‹mget _ sid = some _› _ t]
            · split
              · refine srInv_set_room st _ t _ _
                  ‹mget st.gameRooms _ = some _› ?_ h
                rw [mhas_mdel_ne htv,
                  mhas_mset_of_get ‹mget _ sid = some _› _ t]
              · exact srInv_set_room st _ t _ _
                  ‹mget st.gameRooms _ = some _› (mhas_mdel_ne htv) h
          · exact h
    · exact h

theorem srInv_step (st : ServerState) (e : Event) (t : String)
    (he : notKillOf t e = true) (h : sessionRoomInv st t) :
    sessionRoomInv (step st e).1 t := by
  cases e with
  | connect sid uname => exact srInv_handleConnect st sid uname t h
  | joinGame sid roomId region ju spawn dir color now =>
      exact srInv_handleJoinGame st sid roomId region ju spawn dir color now t h
  | playerUpdate sid u now => exact srInv_handlePlayerUpdate st sid u now t h
  | playerStateUpdate sid u now =>
      exact srInv_handlePlayerStateUpdate st sid u now t h
  | playerKilled sid victimId now =>
      exact srInv_handlePlayerKilled st sid victimId now t
        (of_decide_eq_true (by simpa [notKillOf] using he)) h
  | playerRespawn sid spawn dir now =>
      exact srInv_handlePlayerRespawn st sid spawn dir now t h

theorem srInv_run (st : ServerState) (evs : List Event) (t : String)
    (he : ∀ e ∈ evs, notKillOf t e = true) (h : sessionRoomInv st t) :
    sessionRoomInv (run st evs) t := by
  induction evs generalizing st with
  | nil => exact h
  | cons e tl ih =>
      exact ih _ (fun x hx => he x (List.mem_cons_of_mem _ hx))
        (srInv_step st e t (he e (List.mem_cons_self _ _)) h)

/-! ### Claim theorems -/

/-- C1: for every sequence of events from process start, no room ever holds
more than 80 players; and a `joinGame` from a connected, not-yet-in-game
socket targeting a room that already holds 80 players emits a `roomFull`
event carrying `currentPlayers` equal to the room's current size and
`maxPlayers` 80, disconnects the joining connection, and leaves the room
store (hence the room's membership) entirely unchanged. -/
theorem room_capacity_and_full_rejection
    (evs : List Event) (st : ServerState) (sid roomId region : String)
    (ju : Option String) (spawn : Pos) (dir : ℚ) (color : String) (now : ℕ)
    (c : ConnState) (room : Room)
    (hc : mget st.conns sid = some c)
    (hng : c.isPlayerInGame = false)
    (hroom : mget st.gameRooms (region ++ ":" ++ roomId) = some room)
    (hfull : room.length = 80) :
    capOk (run initState evs) ∧
    (step st (.joinGame sid roomId region ju spawn dir color now)).1.gameRooms
        = st.gameRooms ∧
    (step st (.joinGame sid roomId region ju spawn dir color now)).2
        = [Emit.toSocket sid
             (.roomFull "This room is full. Please try another room."
               room.length 80),
           Emit.disconnect sid] := by
  refine ⟨capOk_run _ _ capOk_initState, ?_, ?_⟩ <;>
  · simp only [step]
    simp [handleJoinGame, hc, hng, getOrCreateRoom, mhas_of_mget hroom,
      hroom, hfull]

def fullRoomPlayer (i : ℕ) : PlayerState :=
  { id := toString i, username := toString i, head := ⟨.num 0, .num 0⟩,
    direction := 0, speed := 2.5, length := 10, color := "#00ff00",
    segments := [], isBoosting := false, score := 0, money := 1, kills := 0,
    lastUpdate := 0 }

def fullRoom : Room := (List.range 80).map fun i => (toString i, fullRoomPlayer i)

def fullState : ServerState :=
  { gameRooms := [("us:1", fullRoom)],
    conns := [("X", ⟨"xavier", none, false⟩)] }

theorem room_capacity_and_full_rejection_witness :
    capOk (run initState []) ∧
    (step fullState (.joinGame "X" "1" "us" none ⟨0, 0⟩ 0 "#fff" 5)).1.gameRooms
        = fullState.gameRooms ∧
    (step fullState (.joinGame "X" "1" "us" none ⟨0, 0⟩ 0 "#fff" 5)).2
        = [Emit.toSocket "X"
             (.roomFull "This room is full. Please try another room."
               fullRoom.length 80),
           Emit.disconnect "X"] :=
  room_capacity_and_full_rejection [] fullState "X" "1" "us" none ⟨0, 0⟩ 0
    "#fff" 5 ⟨"xavier", none, false⟩ fullRoom rfl rfl rfl (by decide)

/-- C3 counterexample: the claim "money ≥ 0 at all times, for every sequence
of join/playerUpdate/playerStateUpdate/playerKilled/playerRespawn events"
is false: `playerStateUpdate` merges an arbitrary client-supplied `money`
into the player (`Object.assign` with no validation), so a payload with
`money = -1` drives a balance negative. -/
theorem money_nonneg_cex :
    ¬ moneyInv (run initState
      [.connect "A" "alice",
       .joinGame "A" "1" "us" none ⟨0, 0⟩ 0 "#0f0" 1,
       .playerStateUpdate "A" { money := some (-1) } 2]) := by decide

/-- C3 (amended): money ≥ 0 is preserved by every sequence of join,
playerUpdate, playerStateUpdate, playerKilled and playerRespawn events,
provided every `playerStateUpdate` payload's `money` field, when present,
is non-negative.  (Kills and respawns in particular always preserve it.) -/
theorem money_nonneg_amended (st : ServerState) (evs : List Event)
    (hm : moneyInv st) (hok : ∀ e ∈ evs, eventMoneyOk e = true) :
    moneyInv (run st evs) :=
  moneyInv_run st evs hok hm

theorem money_nonneg_amended_witness :
    moneyInv (run initState
      [.connect "A" "alice",
       .joinGame "A" "1" "us" none ⟨0, 0⟩ 0 "#0f0" 1,
       .playerStateUpdate "A" { money := some 5 } 2,
       .playerRespawn "A" ⟨1, 1⟩ 0 3]) :=
  money_nonneg_amended initState _ (by decide) (by decide)

/-- C7: a `joinGame` from a connection that is already in game is a strict
no-op (state unchanged, nothing emitted); an in-game connection holds a
`PlayerState` in exactly one room; and this stays true across any further
sequence of events that does not kill that connection. -/
theorem duplicate_join_guard (st : ServerState)
    (sid roomId region : String) (ju : Option String) (spawn : Pos)
    (dir : ℚ) (color : String) (now : ℕ) (evs : List Event) (c : ConnState)
    (hc : mget st.conns sid = some c)
    (hin : c.isPlayerInGame = true)
    (hinv : sessionRoomInv st sid)
    (hevs : ∀ e ∈ evs, notKillOf sid e = true) :
    step st (.joinGame sid roomId region ju spawn dir color now) = (st, []) ∧
    joinedCount st sid = 1 ∧
    sessionRoomInv (run st evs) sid := by
  refine ⟨?_, ?_, srInv_run st evs sid hevs hinv⟩
  · simp only [step]
    simp [handleJoinGame, hc, hin]
  · unfold sessionRoomInv inGameFlag at hinv
    rw [hc] at hinv
    simpa [hin] using hinv

def dupJoinState : ServerState :=
  run initState
    [.connect "A" "alice", .joinGame "A" "1" "us" none ⟨0, 0⟩ 0 "#0f0" 1]

theorem duplicate_join_guard_witness :
    step dupJoinState (.joinGame "A" "2" "eu" none ⟨3, 3⟩ 0 "#00f" 3)
        = (dupJoinState, []) ∧
    joinedCount dupJoinState "A" = 1 ∧
    sessionRoomInv
      (run dupJoinState [.joinGame "A" "2" "eu" none ⟨3, 3⟩ 0 "#00f" 3])
      "A" :=
  duplicate_join_guard dupJoinState "A" "2" "eu" none ⟨3, 3⟩ 0 "#00f" 3
    [.joinGame "A" "2" "eu" none ⟨3, 3⟩ 0 "#00f" 3]
    ⟨"alice", some "us:1", true⟩ (by decide) rfl (by decide) (by decide)

/-- C2: a `playerKilled` from an in-game caller whose room contains both
the caller (non-bot) and a distinct non-bot victim transfers the victim's
entire balance to the killer (`killer.money += victim.money`), increments
the killer's kill counter, removes the victim from the room, and emits a
`balanceUpdate` to the killer plus `playerKilled`, `balanceUpdate` and
`playerLeft` broadcasts to the room, the `playerKilled` payload carrying
`moneyGained = victim.money`, the killer's new balance and new kill
count. -/
theorem kill_transfer_spec (st : ServerState) (sid victimId rn : String)
    (now : ℕ) (c : ConnState) (room : Room) (killer victim : PlayerState)
    (hc : mget st.conns sid = some c)
    (hin : c.isPlayerInGame = true)
    (hrn : c.currentRoomId = some rn)
    (hroom : mget st.gameRooms rn = some room)
    (hk : mget room sid = some killer)
    (hv : mget room victimId = some victim)
    (hkb : isBotId killer.id = false)
    (hvb : isBotId victim.id = false)
    (hne : sid ≠ victimId)
    (hnd : (room.map Prod.fst).Nodup) :
    mget (step st (.playerKilled sid victimId now)).1.gameRooms rn
      = some (mdel (mset room sid
          { killer with
            money := killer.money + victim.money,
            kills := killer.kills + 1 }) victimId) ∧
    mget (mdel (mset room sid
        { killer with
          money := killer.money + victim.money,
          kills := killer.kills + 1 }) victimId) sid
      = some { killer with
          money := killer.money + victim.money,
          kills := killer.kills + 1 } ∧
    mget (mdel (mset room sid
        { killer with
          money := killer.money + victim.money,
          kills := killer.kills + 1 }) victimId) victimId = none ∧
    (step st (.playerKilled sid victimId now)).2
      = [Emit.toSocket sid
           (.balanceUpdate killer.id (killer.money + victim.money)
             victim.money "kill" now),
         Emit.toRoom rn
           (.playerKilled killer.id killer.username victim.id
             victim.username victim.money (killer.money + victim.money)
             (killer.kills + 1) now),
         Emit.toRoom rn
           (.balanceUpdate killer.id (killer.money + victim.money)
             victim.money "kill" now),
         Emit.toRoom rn (.playerLeft victimId now)] := by
  have hstep : step st (.playerKilled sid victimId now)
      = ({ st with gameRooms := mset st.gameRooms rn (mdel (mset room sid
            { killer with
              money := killer.money + victim.money,
              kills := killer.kills + 1 }) victimId) },
         [Emit.toSocket sid
            (.balanceUpdate killer.id (killer.money + victim.money)
              victim.money "kill" now),
          Emit.toRoom rn
            (.playerKilled killer.id killer.username victim.id
              victim.username victim.money (killer.money + victim.money)
              (killer.kills + 1) now),
          Emit.toRoom rn
            (.balanceUpdate killer.id (killer.money + victim.money)
              victim.money "kill" now),
          Emit.toRoom rn (.playerLeft victimId now)]) := by
    simp only [step]
    simp [handlePlayerKilled, hc, hin, hrn, hroom, hk, hv, hkb, hvb]
  refine ⟨?_, ?_, ?_, ?_⟩
  · rw [hstep]
    exact mget_mset_self _ _ _
  · rw [mget_mdel_ne _ _ _ hne, mget_mset_self]
  · exact mget_mdel_self_of_nodup
      (by rw [keys_mset_of_has _ _ _ (mhas_of_mget hk)]; exact hnd)
  · rw [hstep]

def pA : PlayerState :=
  { id := "A", username := "alice", head := ⟨.num 0, .num 0⟩, direction := 0,
    speed := 1, length := 10, color := "#0f0", segments := [],
    isBoosting := false, score := 0, money := 1, kills := 0, lastUpdate := 0 }

def pB : PlayerState := { pA with id := "B", username := "bob" }

def killRoom : Room := [("A", pA), ("B", pB)]

def killState : ServerState :=
  { gameRooms := [("us:1", killRoom)],
    conns := [("A", ⟨"alice", some "us:1", true⟩),
              ("B", ⟨"bob", some "us:1", true⟩)] }

theorem kill_transfer_spec_witness :
    mget (step killState (.playerKilled "A" "B" 9)).1.gameRooms "us:1"
      = some (mdel (mset killRoom "A"
          { pA with money := pA.money + pB.money, kills := pA.kills + 1 }) "B") ∧
    mget (mdel (mset killRoom "A"
        { pA with money := pA.money + pB.money, kills := pA.kills + 1 }) "B") "A"
      = some { pA with money := pA.money + pB.money, kills := pA.kills + 1 } ∧
    mget (mdel (mset killRoom "A"
        { pA with money := pA.money + pB.money, kills := pA.kills + 1 }) "B") "B"
      = none ∧
    (step killState (.playerKilled "A" "B" 9)).2
      = [Emit.toSocket "A"
           (.balanceUpdate pA.id (pA.money + pB.money) pB.money "kill" 9),
         Emit.toRoom "us:1"
           (.playerKilled pA.id pA.username pB.id pB.username pB.money
             (pA.money + pB.money) (pA.kills + 1) 9),
         Emit.toRoom "us:1"
           (.balanceUpdate pA.id (pA.money + pB.money) pB.money "kill" 9),
         Emit.toRoom "us:1" (.playerLeft "B" 9)] :=
  kill_transfer_spec killState "A" "B" "us:1" 9 ⟨"alice", some "us:1", true⟩
    killRoom pA pB rfl rfl rfl rfl rfl rfl (by decide) (by decide)
    (by decide) (by decide)

/-- C8: a `playerKilled` from an in-game caller is a strict no-op (state
unchanged, nothing emitted, nothing removed) whenever the caller or the
referenced victim is absent from the caller's room. -/
theorem kill_missing_party_noop (st : ServerState) (sid victimId : String)
    (now : ℕ) (c : ConnState) (rn : String) (room : Room)
    (hc : mget st.conns sid = some c)
    (hin : c.isPlayerInGame = true)
    (hrn : c.currentRoomId = some rn)
    (hroom : mget st.gameRooms rn = some room)
    (habs : mget room sid = none ∨ mget room victimId = none) :
    step st (.playerKilled sid victimId now) = (st, []) := by
  simp only [step]
  rcases habs with h1 | h1
  · simp [handlePlayerKilled, hc, hin, hrn, hroom, h1]
  · cases o : mget room sid with
    | none => simp [handlePlayerKilled, hc, hin, hrn, hroom, o]
    | some killer => simp [handlePlayerKilled, hc, hin, hrn, hroom, o, h1]

theorem kill_missing_party_noop_witness :
    step killState (.playerKilled "A" "C" 9) = (killState, []) :=
  kill_missing_party_noop killState "A" "C" 9 ⟨"alice", some "us:1", true⟩
    "us:1" killRoom rfl rfl rfl rfl (Or.inr rfl)

/-- C9: the kill handler has no self-kill guard: a `playerKilled` whose
`victimId` is the caller's own id, for an in-game non-bot caller present in
its room, takes the normal kill path with killer and victim the same
record — the broadcasts report `newKillerMoney = 2 × prior balance` and
`newKillerKills = prior kills + 1`, and the player is then deleted from
the room. -/
theorem self_kill_doubles_and_removes (st : ServerState) (sid : String)
    (now : ℕ) (c : ConnState) (rn : String) (room : Room) (p : PlayerState)
    (hc : mget st.conns sid = some c)
    (hin : c.isPlayerInGame = true)
    (hrn : c.currentRoomId = some rn)
    (hroom : mget st.gameRooms rn = some room)
    (hp : mget room sid = some p)
    (hb : isBotId p.id = false)
    (hnd : (room.map Prod.fst).Nodup) :
    mget (step st (.playerKilled sid sid now)).1.gameRooms rn
      = some (mdel (mset room sid
          { p with money := 2 * p.money, kills := p.kills + 1 }) sid) ∧
    mget (mdel (mset room sid
        { p with money := 2 * p.money, kills := p.kills + 1 }) sid) sid
      = none ∧
    (step st (.playerKilled sid sid now)).2
      = [Emit.toSocket sid
           (.balanceUpdate p.id (2 * p.money) p.money "kill" now),
         Emit.toRoom rn
           (.playerKilled p.id p.username p.id p.username p.money
             (2 * p.money) (p.kills + 1) now),
         Emit.toRoom rn
           (.balanceUpdate p.id (2 * p.money) p.money "kill" now),
         Emit.toRoom rn (.playerLeft sid now)] := by
  have hstep : step st (.playerKilled sid sid now)
      = ({ st with gameRooms := mset st.gameRooms rn (mdel (mset room sid
            { p with money := 2 * p.money, kills := p.kills + 1 }) sid) },
         [Emit.toSocket sid
            (.balanceUpdate p.id (2 * p.money) p.money "kill" now),
          Emit.toRoom rn
            (.playerKilled p.id p.username p.id p.username p.money
              (2 * p.money) (p.kills + 1) now),
          Emit.toRoom rn
            (.balanceUpdate p.id (2 * p.money) p.money "kill" now),
          Emit.toRoom rn (.playerLeft sid now)]) := by
    simp only [step]
    simp [handlePlayerKilled, hc, hin, hrn, hroom, hp, hb, two_mul]
  refine ⟨?_, ?_, ?_⟩
  · rw [hstep]
    exact mget_mset_self _ _ _
  · exact mget_mdel_self_of_nodup
      (by rw [keys_mset_of_has _ _ _ (mhas_of_mget hp)]; exact hnd)
  · rw [hstep]

theorem self_kill_doubles_and_removes_witness :
    mget (step killState (.playerKilled "A" "A" 9)).1.gameRooms "us:1"
      = some (mdel (mset killRoom "A"
          { pA with money := 2 * pA.money, kills := pA.kills + 1 }) "A") ∧
    mget (mdel (mset killRoom "A"
        { pA with money := 2 * pA.money, kills := pA.kills + 1 }) "A") "A"
      = none ∧
    (step killState (.playerKilled "A" "A" 9)).2
      = [Emit.toSocket "A"
           (.balanceUpdate pA.id (2 * pA.money) pA.money "kill" 9),
         Emit.toRoom "us:1"
           (.playerKilled pA.id pA.username pA.id pA.username pA.money
             (2 * pA.money) (pA.kills + 1) 9),
         Emit.toRoom "us:1"
           (.balanceUpdate pA.id (2 * pA.money) pA.money "kill" 9),
         Emit.toRoom "us:1" (.playerLeft "A" 9)] :=
  self_kill_doubles_and_removes killState "A" 9 ⟨"alice", some "us:1", true⟩
    "us:1" killRoom pA rfl rfl rfl rfl rfl (by decide) (by decide)

/-- C10: a `playerKilled` whose killer record has a bot-prefixed id, with
both parties present, changes no balance and no kill counter and emits no
`playerKilled`/`balanceUpdate`, yet still deletes the victim and
broadcasts `playerLeft` — so the victim's entire balance is destroyed and
the total money held in the room drops by the victim's balance. -/
theorem bot_killer_destroys_balance (st : ServerState)
    (sid victimId : String) (now : ℕ) (c : ConnState) (rn : String)
    (room : Room) (killer victim : PlayerState)
    (hc : mget st.conns sid = some c)
    (hin : c.isPlayerInGame = true)
    (hrn : c.currentRoomId = some rn)
    (hroom : mget st.gameRooms rn = some room)
    (hk : mget room sid = some killer)
    (hkb : isBotId killer.id = true)
    (hv : mget room victimId = some victim)
    (hnd : (room.map Prod.fst).Nodup) :
    (step st (.playerKilled sid victimId now)).1
      = { st with gameRooms := mset st.gameRooms rn (mdel room victimId) } ∧
    mget (mdel room victimId) victimId = none ∧
    roomMoney (mdel room victimId) = roomMoney room - victim.money ∧
    (step st (.playerKilled sid victimId now)).2
      = [Emit.toRoom rn (.playerLeft victimId now)] := by
  have hstep : step st (.playerKilled sid victimId now)
      = ({ st with gameRooms := mset st.gameRooms rn (mdel room victimId) },
         [Emit.toRoom rn (.playerLeft victimId now)]) := by
    simp only [step]
    simp [handlePlayerKilled, hc, hin, hrn, hroom, hk, hv, hkb]
  exact ⟨by rw [hstep], mget_mdel_self_of_nodup hnd, roomMoney_mdel hv,
    by rw [hstep]⟩

def botK : PlayerState := { pA with id := "bot-1", username := "bot" }

def botVictim : PlayerState := { pA with id := "V", username := "vic" }

def botKillRoom : Room := [("bot-1", botK), ("V", botVictim)]

def botKillState : ServerState :=
  { gameRooms := [("us:1", botKillRoom)],
    conns := [("bot-1", ⟨"bot", some "us:1", true⟩)] }

theorem bot_killer_destroys_balance_witness :
    (step botKillState (.playerKilled "bot-1" "V" 9)).1
      = { botKillState with
          gameRooms := mset botKillState.gameRooms "us:1"
            (mdel botKillRoom "V") } ∧
    mget (mdel botKillRoom "V") "V" = none ∧
    roomMoney (mdel botKillRoom "V") = roomMoney botKillRoom - botVictim.money ∧
    (step botKillState (.playerKilled "bot-1" "V" 9)).2
      = [Emit.toRoom "us:1" (.playerLeft "V" 9)] :=
  bot_killer_destroys_balance botKillState "bot-1" "V" 9
    ⟨"bot", some "us:1", true⟩ "us:1" botKillRoom botK botVictim rfl rfl rfl
    rfl rfl (by decide) rfl (by decide)

def c4Killer : PlayerState := { pA with id := "K", username := "kay" }

def c4Bot : PlayerState := { pA with id := "bot-7", username := "botseven" }

def c4Room : Room := [("K", c4Killer), ("bot-7", c4Bot)]

def c4State : ServerState :=
  { gameRooms := [("us:1", c4Room)],
    conns := [("K", ⟨"kay", some "us:1", true⟩)] }

/-- C4 counterexample: the claim "for a bot-involving kill no kill counter
is incremented on either side" is false: a real (non-bot) killer of a bot
victim gets `kills += 1` (the killer's counter goes from 0 to 1 here). -/
theorem bot_kill_counter_cex :
    (mget c4Room "K").map PlayerState.kills = some 0 ∧
    ((mget (step c4State (.playerKilled "K" "bot-7" 5)).1.gameRooms
        "us:1").bind (fun r => mget r "K")).map PlayerState.kills
      = some 1 := by
  exact ⟨rfl, rfl⟩

/-- C4 (amended): for a `playerKilled` with both parties present where the
killer or the victim is a bot, no money moves: when the killer is a bot
nothing changes except that the victim is deleted and `playerLeft` is
broadcast; when the killer is real (so the victim is the bot) the killer's
kill counter — and nothing else of the killer — is incremented by 1, and a
UI-only `playerKilled` with `moneyGained = 0` plus the `playerLeft` are
broadcast; the victim is removed in both cases. -/
theorem bot_kill_amended (st : ServerState) (sid victimId : String)
    (now : ℕ) (c : ConnState) (rn : String) (room : Room)
    (killer victim : PlayerState)
    (hc : mget st.conns sid = some c)
    (hin : c.isPlayerInGame = true)
    (hrn : c.currentRoomId = some rn)
    (hroom : mget st.gameRooms rn = some room)
    (hk : mget room sid = some killer)
    (hv : mget room victimId = some victim)
    (hbot : (isBotId killer.id || isBotId victim.id) = true)
    (hnd : (room.map Prod.fst).Nodup) :
    (isBotId killer.id = true →
      (step st (.playerKilled sid victimId now)).1
          = { st with gameRooms := mset st.gameRooms rn (mdel room victimId) } ∧
      mget (mdel room victimId) victimId = none ∧
      (step st (.playerKilled sid victimId now)).2
          = [Emit.toRoom rn (.playerLeft victimId now)]) ∧
    (isBotId killer.id = false →
      (step st (.playerKilled sid victimId now)).1
          = { st with
              gameRooms := mset st.gameRooms rn
                (mdel (mset room sid
                  { killer with kills := killer.kills + 1 }) victimId) } ∧
      mget (mdel (mset room sid
          { killer with kills := killer.kills + 1 }) victimId) victimId
        = none ∧
      (step st (.playerKilled sid victimId now)).2
          = [Emit.toRoom rn
               (.playerKilled killer.id killer.username victim.id
                 victim.username 0 killer.money (killer.kills + 1) now),
             Emit.toRoom rn (.playerLeft victimId now)]) := by
  constructor
  · intro hkb
    have hstep : step st (.playerKilled sid victimId now)
        = ({ st with gameRooms := mset st.gameRooms rn (mdel room victimId) },
           [Emit.toRoom rn (.playerLeft victimId now)]) := by
      simp only [step]
      simp [handlePlayerKilled, hc, hin, hrn, hroom, hk, hv, hkb]
    exact ⟨by rw [hstep], mget_mdel_self_of_nodup hnd, by rw [hstep]⟩
  · intro hkb
    have hvb : isBotId victim.id = true := by
      simpa [hkb] using hbot
    have hstep : step st (.playerKilled sid victimId now)
        = ({ st with
             gameRooms := mset st.gameRooms rn
               (mdel (mset room sid
                 { killer with kills := killer.kills + 1 }) victimId) },
           [Emit.toRoom rn
              (.playerKilled killer.id killer.username victim.id
                victim.username 0 killer.money (killer.kills + 1) now),
            Emit.toRoom rn (.playerLeft victimId now)]) := by
      simp only [step]
      simp [handlePlayerKilled, hc, hin, hrn, hroom, hk, hv, hkb, hvb]
    refine ⟨by rw [hstep], ?_, by rw [hstep]⟩
    exact mget_mdel_self_of_nodup
      (by rw [keys_mset_of_has _ _ _ (mhas_of_mget hk)]; exact hnd)

theorem bot_kill_amended_witness :
    (isBotId c4Killer.id = true →
      (step c4State (.playerKilled "K" "bot-7" 5)).1
          = { c4State with
              gameRooms := mset c4State.gameRooms "us:1"
                (mdel c4Room "bot-7") } ∧
      mget (mdel c4Room "bot-7") "bot-7" = none ∧
      (step c4State (.playerKilled "K" "bot-7" 5)).2
          = [Emit.toRoom "us:1" (.playerLeft "bot-7" 5)]) ∧
    (isBotId c4Killer.id = false →
      (step c4State (.playerKilled "K" "bot-7" 5)).1
          = { c4State with
              gameRooms := mset c4State.gameRooms "us:1"
                (mdel (mset c4Room "K"
                  { c4Killer with kills := c4Killer.kills + 1 }) "bot-7") } ∧
      mget (mdel (mset c4Room "K"
          { c4Killer with kills := c4Killer.kills + 1 }) "bot-7") "bot-7"
        = none ∧
      (step c4State (.playerKilled "K" "bot-7" 5)).2
          = [Emit.toRoom "us:1"
               (.playerKilled c4Killer.id c4Killer.username c4Bot.id
                 c4Bot.username 0 c4Killer.money (c4Killer.kills + 1) 5),
             Emit.toRoom "us:1" (.playerLeft "bot-7" 5)]) :=
  bot_kill_amended c4State "K" "bot-7" 5 ⟨"kay", some "us:1", true⟩ "us:1"
    c4Room c4Killer c4Bot rfl rfl rfl rfl rfl rfl (by decide) (by decide)

/-- C5: a `playerRespawn` from an in-game, non-bot player present in its
room fully resets the player — `head` and `segments` to the freshly
generated spawn position (`segments` a single element), `direction` to the
fresh random angle, `speed = 2.5`, `length = 10`, `isBoosting = false`,
`score = 0`, `money = 1.00`, `kills = 0` — and emits a `balanceUpdate` to
the player plus `playerRespawned` and `balanceUpdate` broadcasts to the
whole room; for a bot-prefixed player the event changes nothing and emits
nothing. -/
theorem respawn_resets_state (st : ServerState) (sid : String) (spawn : Pos)
    (dir : ℚ) (now : ℕ) (c : ConnState) (rn : String) (room : Room)
    (p : PlayerState)
    (hc : mget st.conns sid = some c)
    (hin : c.isPlayerInGame = true)
    (hrn : c.currentRoomId = some rn)
    (hroom : mget st.gameRooms rn = some room)
    (hp : mget room sid = some p) :
    (isBotId p.id = true →
      step st (.playerRespawn sid spawn dir now) = (st, [])) ∧
    (isBotId p.id = false →
      (step st (.playerRespawn sid spawn dir now)).1
          = { st with
              gameRooms := mset st.gameRooms rn (mset room sid
                { p with
                  head := spawn.toJs, direction := dir, speed := 2.5,
                  length := 10, segments := [spawn.toJs],
                  isBoosting := false, score := 0, money := 1, kills := 0,
                  lastUpdate := now }) } ∧
      mget (mset room sid
          { p with
            head := spawn.toJs, direction := dir, speed := 2.5,
            length := 10, segments := [spawn.toJs], isBoosting := false,
            score := 0, money := 1, kills := 0, lastUpdate := now }) sid
        = some { p with
            head := spawn.toJs, direction := dir, speed := 2.5,
            length := 10, segments := [spawn.toJs], isBoosting := false,
            score := 0, money := 1, kills := 0, lastUpdate := now } ∧
      (step st (.playerRespawn sid spawn dir now)).2
          = [Emit.toSocket sid (.balanceUpdate p.id 1 0 "respawn" now),
             Emit.toRoom rn
               (.playerRespawned p.id p.username spawn.toJs 1 now),
             Emit.toRoom rn (.balanceUpdate p.id 1 0 "respawn" now)]) := by
  constructor
  · intro hb
    simp only [step]
    simp [handlePlayerRespawn, hc, hin, hrn, hroom, hp, hb]
  · intro hb
    have hstep : step st (.playerRespawn sid spawn dir now)
        = ({ st with
             gameRooms := mset st.gameRooms rn (mset room sid
               { p with
                 head := spawn.toJs, direction := dir, speed := 2.5,
                 length := 10, segments := [spawn.toJs],
                 isBoosting := false, score := 0, money := 1, kills := 0,
                 lastUpdate := now }) },
           [Emit.toSocket sid (.balanceUpdate p.id 1 0 "respawn" now),
            Emit.toRoom rn (.playerRespawned p.id p.username spawn.toJs 1 now),
            Emit.toRoom rn (.balanceUpdate p.id 1 0 "respawn" now)]) := by
      simp only [step]
      simp [handlePlayerRespawn, hc, hin, hrn, hroom, hp, hb]
    exact ⟨by rw [hstep], mget_mset_self _ _ _, by rw [hstep]⟩

theorem respawn_resets_state_witness :
    (isBotId pA.id = true →
      step killState (.playerRespawn "A" ⟨2, 3⟩ 0 4) = (killState, [])) ∧
    (isBotId pA.id = false →
      (step killState (.playerRespawn "A" ⟨2, 3⟩ 0 4)).1
          = { killState with
              gameRooms := mset killState.gameRooms "us:1" (mset killRoom "A"
                { pA with
                  head := Pos.toJs ⟨2, 3⟩, direction := 0, speed := 2.5,
                  length := 10, segments := [Pos.toJs ⟨2, 3⟩],
                  isBoosting := false, score := 0, money := 1, kills := 0,
                  lastUpdate := 4 }) } ∧
      mget (mset killRoom "A"
          { pA with
            head := Pos.toJs ⟨2, 3⟩, direction := 0, speed := 2.5,
            length := 10, segments := [Pos.toJs ⟨2, 3⟩], isBoosting := false,
            score := 0, money := 1, kills := 0, lastUpdate := 4 }) "A"
        = some { pA with
            head := Pos.toJs ⟨2, 3⟩, direction := 0, speed := 2.5,
            length := 10, segments := [Pos.toJs ⟨2, 3⟩], isBoosting := false,
            score := 0, money := 1, kills := 0, lastUpdate := 4 } ∧
      (step killState (.playerRespawn "A" ⟨2, 3⟩ 0 4)).2
          = [Emit.toSocket "A" (.balanceUpdate pA.id 1 0 "respawn" 4),
             Emit.toRoom "us:1"
               (.playerRespawned pA.id pA.username (Pos.toJs ⟨2, 3⟩) 1 4),
             Emit.toRoom "us:1" (.balanceUpdate pA.id 1 0 "respawn" 4)]) :=
  respawn_resets_state killState "A" ⟨2, 3⟩ 0 4 ⟨"alice", some "us:1", true⟩
    "us:1" killRoom pA rfl rfl rfl rfl rfl

def badUpd : PlayerUpdate :=
  { id := "A", head := some ⟨.inf, .num 0⟩, direction := 0, speed := 1,
    length := 10, isBoosting := false }

/-- C6 counterexample: the claim "a head without two *finite* numeric
coordinates is dropped with no side effects" is false: the source only
checks `typeof === 'number'`, which `Infinity` (and `NaN`) satisfy, so a
payload with head `(Infinity, 0)` is accepted — the player's head is
overwritten with it and the update is broadcast. -/
theorem player_update_finiteness_cex :
    badUpd.head.map (fun h => h.x.isFiniteNum && h.y.isFiniteNum)
      = some false ∧
    (step killState (.playerUpdate "A" badUpd 7)).2 ≠ [] ∧
    ((mget (step killState (.playerUpdate "A" badUpd 7)).1.gameRooms
        "us:1").bind (fun r => mget r "A")).map PlayerState.head
      = some ⟨.inf, .num 0⟩ := by
  exact ⟨rfl, by decide, rfl⟩

/-- C6 (amended): a `playerUpdate` from an in-game player present in its
room is dropped with no side effects unless the payload's `head` is
present with both coordinates of number type (`typeof === 'number'`; `NaN`
and `±Infinity` pass this check); on success `head`, `direction`, `speed`,
`length`, `isBoosting` are overwritten from the payload, `lastUpdate` is
set to now, `segments` is untouched, and a projection
`{id, head, direction, speed, length, isBoosting}` is broadcast to the
room excluding the sender. -/
theorem player_update_validation_amended (st : ServerState) (sid : String)
    (u : PlayerUpdate) (now : ℕ) (c : ConnState) (rn : String) (room : Room)
    (p : PlayerState)
    (hc : mget st.conns sid = some c)
    (hin : c.isPlayerInGame = true)
    (hrn : c.currentRoomId = some rn)
    (hroom : mget st.gameRooms rn = some room)
    (hp : mget room sid = some p) :
    (headValid u = false → step st (.playerUpdate sid u now) = (st, [])) ∧
    (headValid u = true →
      (step st (.playerUpdate sid u now)).1
          = { st with
              gameRooms := mset st.gameRooms rn (mset room sid
                { p with
                  head := u.head.getD ⟨.nonNumber, .nonNumber⟩,
                  direction := u.direction, speed := u.speed,
                  length := u.length, isBoosting := u.isBoosting,
                  lastUpdate := now }) } ∧
      ({ p with
          head := u.head.getD ⟨.nonNumber, .nonNumber⟩,
          direction := u.direction, speed := u.speed, length := u.length,
          isBoosting := u.isBoosting,
          lastUpdate := now } : PlayerState).segments = p.segments ∧
      (step st (.playerUpdate sid u now)).2
          = [Emit.toRoomExcept rn sid
               (.playerUpdate sid (u.head.getD ⟨.nonNumber, .nonNumber⟩)
                 u.direction u.speed u.length u.isBoosting)]) := by
  constructor
  · intro hbad
    cases o : u.head with
    | none =>
        simp only [step]
        simp [handlePlayerUpdate, hc, hin, hrn, hroom, hp, o]
    | some h =>
        simp only [headValid, o] at hbad
        simp only [step]
        simp [handlePlayerUpdate, hc, hin, hrn, hroom, hp, o, hbad]
  · intro hval
    cases o : u.head with
    | none =>
        simp only [headValid, o] at hval
        exact absurd hval (by simp)
    | some h =>
        simp only [headValid, o] at hval
        have hstep : step st (.playerUpdate sid u now)
            = ({ st with
                 gameRooms := mset st.gameRooms rn (mset room sid
                   { p with
                     head := h, direction := u.direction, speed := u.speed,
                     length := u.length, isBoosting := u.isBoosting,
                     lastUpdate := now }) },
               [Emit.toRoomExcept rn sid
                  (.playerUpdate sid h u.direction u.speed u.length
                    u.isBoosting)]) := by
          simp only [step]
          simp [handlePlayerUpdate, hc, hin, hrn, hroom, hp, o, hval]
        refine ⟨?_, rfl, ?_⟩
        · rw [hstep]
          simp [o]
        · rw [hstep]
          simp [o]

def goodUpd : PlayerUpdate :=
  { id := "A", head := some ⟨.num 5, .num 6⟩, direction := 1, speed := 3,
    length := 12, isBoosting := true }

theorem player_update_validation_amended_witness :
    (headValid goodUpd = false →
      step killState (.playerUpdate "A" goodUpd 7) = (killState, [])) ∧
    (headValid goodUpd = true →
      (step killState (.playerUpdate "A" goodUpd 7)).1
          = { killState with
              gameRooms := mset killState.gameRooms "us:1" (mset killRoom "A"
                { pA with
                  head := goodUpd.head.getD ⟨.nonNumber, .nonNumber⟩,
                  direction := goodUpd.direction, speed := goodUpd.speed,
                  length := goodUpd.length, isBoosting := goodUpd.isBoosting,
                  lastUpdate := 7 }) } ∧
      ({ pA with
          head := goodUpd.head.getD ⟨.nonNumber, .nonNumber⟩,
          direction := goodUpd.direction, speed := goodUpd.speed,
          length := goodUpd.length, isBoosting := goodUpd.isBoosting,
          lastUpdate := 7 } : PlayerState).segments = pA.segments ∧
      (step killState (.playerUpdate "A" goodUpd 7)).2
          = [Emit.toRoomExcept "us:1" "A"
               (.playerUpdate "A" (goodUpd.head.getD ⟨.nonNumber, .nonNumber⟩)
                 goodUpd.direction goodUpd.speed goodUpd.length
                 goodUpd.isBoosting)]) :=
  player_update_validation_amended killState "A" goodUpd 7
    ⟨"alice", some "us:1", true⟩ "us:1" killRoom pA rfl rfl rfl rfl rfl
